import Mathlib

/-!
Shallow embedding of the tutel MoE data-movement core
(`tutel/impls/fast_dispatch.py` and `tutel/impls/communicate.py`).

Tensors are embedded as functions `Nat → Nat → Int` (row, column ↦ value);
floating-point arithmetic is idealized as exact integer arithmetic, which
preserves every structural (linear-algebra) property the code relies on.
The CUDA kernels produced by `tutel/jit_kernels/sparse.py` are not part of
the source tree; they are modelled from the spec where noted.
-/

namespace Tutel

/-- A 2-D tensor: row index, column index ↦ value. -/
abbrev Mat := Nat → Nat → Int

/-- Sum of `f 0 + f 1 + ... + f (n-1)`. -/
def sumTo (f : Nat → Int) : Nat → Int
  | 0 => 0
  | Nat.succ n => sumTo f n + f n

/-- `for i in range(n)` accumulation, in Python loop order. -/
def foldRange {α : Type} (f : α → Nat → α) (init : α) : Nat → α
  | 0 => init
  | Nat.succ n => f (foldRange f init n) n

/-- The all-zero tensor (`torch.zeros`). -/
def zerosMat : Mat := fun _ _ => 0

/-- Elementwise tensor addition (`last_result + grad_data`). -/
def matAdd (a b : Mat) : Mat := fun r c => a r c + b r c

/-- Routing state held by a `TutelMoeFastDispatcher` after `update`:
`k` routing choices, each with per-token expert indices, slot locations
and combination gates (`self.indices_`, `self.locations_`, `self.gates_`). -/
structure DispatchConfig where
  num_global_experts : Nat
  capacity : Nat
  model_dim : Nat
  expected_sample_size : Nat
  k : Nat
  indices_ : Nat → Nat → Nat
  locations_ : Nat → Nat → Nat
  gates_ : Nat → Nat → Int

/-- Modelled from the spec: the specialized forward-scatter kernel built by
`jit_kernels.sparse.create_forward`, whose source is not under `src/`.
Per the spec, it accumulates into `output`: for every token `t` with
`locations t < capacity`, row `indices t * capacity + locations t` of
`output` receives `gates t * input t`; a token with `locations t ≥ capacity`
is silently skipped (capacity-overflow drop). -/
def func_fwd (sample_size capacity : Nat) (gates : Nat → Int)
    (indices locations : Nat → Nat) (input output : Mat) : Mat :=
  fun r c => output r c +
    sumTo (fun t =>
      if locations t < capacity ∧ indices t * capacity + locations t = r
      then gates t * input t c else 0) sample_size

/-- Modelled from the spec: the specialized backward-data / gather kernel built
by `jit_kernels.sparse.create_backward_data`, whose source is not under `src/`.
Per the spec, it writes (overwrites, the buffer is `torch.empty`) per token `t`:
`gates t * dispatched (indices t * capacity + locations t)` when
`locations t < capacity`, and exactly zero when the token was dropped. -/
def func_bwd_data (capacity : Nat) (gates : Nat → Int)
    (indices locations : Nat → Nat) (dispatched : Mat) : Mat :=
  fun t c =>
    if locations t < capacity
    then gates t * dispatched (indices t * capacity + locations t) c else 0

/-- `self.ones_helper`: an all-ones gate vector used by the encoder. -/
def ones_helper : Nat → Int := fun _ => 1

/-- `GatingEncoder.forward`: starts from a zero dispatch buffer of shape
`[num_global_experts * capacity, model_dim]` and, for `i in
range(len(indices_))`, scatters `reshaped_input` with unit gates using routing
choice `i`'s indices and locations. -/
def GatingEncoder_forward (cfg : DispatchConfig) (reshaped_input : Mat) : Mat :=
  foldRange
    (fun acc i =>
      func_fwd cfg.expected_sample_size cfg.capacity ones_helper
        (cfg.indices_ i) (cfg.locations_ i) reshaped_input acc)
    zerosMat cfg.k

/-- `GatingEncoder.backward`: sums, over the routing choices, the gather of the
incoming dispatch-buffer gradient back to token order with unit gates. -/
def GatingEncoder_backward (cfg : DispatchConfig) (dispatched_input : Mat) : Mat :=
  foldRange
    (fun acc i =>
      matAdd acc
        (func_bwd_data cfg.capacity ones_helper
          (cfg.indices_ i) (cfg.locations_ i) dispatched_input))
    zerosMat cfg.k

/-- `GatingDecoder.forward`: sums, over the routing choices, the gather of
`expert_output` back to token order weighted by that choice's gates. -/
def GatingDecoder_forward (cfg : DispatchConfig) (expert_output : Mat)
    (gates : Nat → Nat → Int) : Mat :=
  foldRange
    (fun acc i =>
      matAdd acc
        (func_bwd_data cfg.capacity (gates i)
          (cfg.indices_ i) (cfg.locations_ i) expert_output))
    zerosMat cfg.k

/-- `TutelMoeFastDispatcher.encode` (dtype casts idealized as exact). -/
def encode (cfg : DispatchConfig) (data : Mat) : Mat :=
  GatingEncoder_forward cfg data

/-- `TutelMoeFastDispatcher.decode` (dtype casts idealized as exact);
passes the installed `self.gates_` to the decoder. -/
def decode (cfg : DispatchConfig) (data : Mat) : Mat :=
  GatingDecoder_forward cfg data cfg.gates_

/-- The contribution of token `t` under routing choice `i` to entry `(r, c)` of
the dispatch buffer built by `GatingEncoder_forward`. -/
def encodeContrib (cfg : DispatchConfig) (input : Mat) (i t r c : Nat) : Int :=
  if cfg.locations_ i t < cfg.capacity ∧
      cfg.indices_ i t * cfg.capacity + cfg.locations_ i t = r
  then input t c else 0

/-- A dispatch buffer built from the first routing choice only; follows the
spec's words for `encode` ("only one routing choice is used for encode"), to be
compared with `GatingEncoder_forward` as translated from the source. -/
def GatingEncoder_forward_specFirstOnly (cfg : DispatchConfig) (input : Mat) : Mat :=
  func_fwd cfg.expected_sample_size cfg.capacity ones_helper
    (cfg.indices_ 0) (cfg.locations_ 0) input zerosMat

lemma sumTo_congr {f g : Nat → Int} (n : Nat) (h : ∀ t, t < n → f t = g t) :
    sumTo f n = sumTo g n := by
  induction n with
  | zero => rfl
  | succ m ih =>
      simp only [sumTo]
      rw [ih (fun t ht => h t (Nat.lt_succ_of_lt ht)), h m (Nat.lt_succ_self m)]

lemma encode_closed_form (cfg : DispatchConfig) (input : Mat) (r c : Nat) :
    GatingEncoder_forward cfg input r c =
      sumTo (fun i =>
        sumTo (fun t => encodeContrib cfg input i t r c)
          cfg.expected_sample_size) cfg.k := by
  unfold GatingEncoder_forward
  induction cfg.k with
  | zero => rfl
  | succ m ih =>
      simp only [foldRange, sumTo, func_fwd, ← ih]
      congr 1
      refine sumTo_congr _ (fun t _ => ?_)
      simp only [encodeContrib, ones_helper, one_mul]

lemma decode_closed_form (cfg : DispatchConfig) (expert_output : Mat)
    (gates : Nat → Nat → Int) (t c : Nat) :
    GatingDecoder_forward cfg expert_output gates t c =
      sumTo (fun i =>
        func_bwd_data cfg.capacity (gates i)
          (cfg.indices_ i) (cfg.locations_ i) expert_output t c) cfg.k := by
  unfold GatingDecoder_forward
  induction cfg.k with
  | zero => rfl
  | succ m ih =>
      simp only [foldRange, sumTo, matAdd, ← ih]

lemma encoder_backward_closed_form (cfg : DispatchConfig) (dispatched : Mat)
    (t c : Nat) :
    GatingEncoder_backward cfg dispatched t c =
      sumTo (fun i =>
        func_bwd_data cfg.capacity ones_helper
          (cfg.indices_ i) (cfg.locations_ i) dispatched t c) cfg.k := by
  unfold GatingEncoder_backward
  induction cfg.k with
  | zero => rfl
  | succ m ih =>
      simp only [foldRange, sumTo, matAdd, ← ih]

/-- Concrete routing state used to refute the claim that `encode` uses only the
first routing choice: two choices, two experts, capacity 1, one token; choice 0
routes the token to expert 0 and choice 1 routes it to expert 1. -/
def cfgC1 : DispatchConfig where
  num_global_experts := 2
  capacity := 1
  model_dim := 1
  expected_sample_size := 1
  k := 2
  indices_ := fun i _ => i
  locations_ := fun _ _ => 0
  gates_ := fun _ _ => 1

/-- An input holding value 7 for the single token's single feature. -/
def inputC1 : Mat := fun _ _ => 7

/-- Claim C1 is false on the code: with two routing choices, the dispatch
buffer returned by `GatingEncoder.forward` holds the token's features in
choice 1's slot (row `indices_[1][0]*capacity + locations_[1][0] = 1`) as well,
whereas a buffer built from the first choice only leaves that row zero.
Contributions from routing choices `i > 0` do appear. -/
theorem encode_first_choice_only_counterexample :
    GatingEncoder_forward cfgC1 inputC1 1 0 = 7 ∧
      GatingEncoder_forward_specFirstOnly cfgC1 inputC1 1 0 = 0 ∧
      GatingEncoder_forward cfgC1 inputC1 1 0 ≠
        GatingEncoder_forward_specFirstOnly cfgC1 inputC1 1 0 := by
  refine ⟨by decide, by decide, by decide⟩

/-- Claim C1 (amended): for every dispatcher state installed by `update`,
`encode` scatters `token_features` into the dispatch buffer using ALL routing
choices' indices and locations, each with unit weight: entry `(r, c)` of the
returned buffer is the sum, over every routing choice `i` and token `t`, of
`token_features t c` when choice `i` places token `t` in row `r` within
capacity, and 0 otherwise. -/
theorem encode_scatters_all_choices (cfg : DispatchConfig) (token_features : Mat)
    (r c : Nat) :
    encode cfg token_features r c =
      sumTo (fun i =>
        sumTo (fun t => encodeContrib cfg token_features i t r c)
          cfg.expected_sample_size) cfg.k :=
  encode_closed_form cfg token_features r c

/-- Claim C2: a token `t` whose location under routing choice `i` is at least
the capacity is silently dropped: its contribution to every entry of the
dispatch buffer under that choice is zero, the choice-`i` gather term of
`GatingEncoder.backward` at token `t` is exactly the zero row, and the
choice-`i` gather term of `GatingDecoder.forward` at token `t` is zero as well
(no error is raised anywhere: every operation is total). -/
theorem capacity_drop_zero_contribution (cfg : DispatchConfig)
    (input dispatched expert_output : Mat) (i t : Nat)
    (hdrop : cfg.capacity ≤ cfg.locations_ i t) :
    (∀ r c, encodeContrib cfg input i t r c = 0) ∧
      (∀ c, func_bwd_data cfg.capacity ones_helper
          (cfg.indices_ i) (cfg.locations_ i) dispatched t c = 0) ∧
      (∀ c, func_bwd_data cfg.capacity (cfg.gates_ i)
          (cfg.indices_ i) (cfg.locations_ i) expert_output t c = 0) := by
  have hnot : ¬ cfg.locations_ i t < cfg.capacity := Nat.not_lt.mpr hdrop
  refine ⟨fun r c => ?_, fun c => ?_, fun c => ?_⟩
  · simp [encodeContrib, hnot]
  · simp [func_bwd_data, hnot]
  · simp [func_bwd_data, hnot]

/-- Concrete routing state exercising `capacity_drop_zero_contribution`:
capacity 2, one choice, token 0's location is 5 ≥ 2. -/
def cfgC2 : DispatchConfig where
  num_global_experts := 2
  capacity := 2
  model_dim := 1
  expected_sample_size := 1
  k := 1
  indices_ := fun _ _ => 0
  locations_ := fun _ _ => 5
  gates_ := fun _ _ => 3

theorem capacity_drop_zero_contribution_witness :
    cfgC2.capacity ≤ cfgC2.locations_ 0 0 ∧
      encodeContrib cfgC2 inputC1 0 0 0 0 = 0 ∧
      func_bwd_data cfgC2.capacity ones_helper
        (cfgC2.indices_ 0) (cfgC2.locations_ 0) inputC1 0 0 = 0 :=
  ⟨by decide,
    (capacity_drop_zero_contribution cfgC2 inputC1 inputC1 inputC1 0 0
      (by decide)).1 0 0,
    (capacity_drop_zero_contribution cfgC2 inputC1 inputC1 inputC1 0 0
      (by decide)).2.1 0⟩

/-- Claim C3: for every dispatcher state with `k` routing choices,
`decode expert_output` returns, at every token `t` and feature `c`, the sum
over all choices `i` of `gates_[i][t] * expert_output[indices_[i][t]*capacity +
locations_[i][t]]`, with a zero contribution for any choice whose token was
dropped (`locations_[i][t] ≥ capacity`). -/
theorem decode_combines_all_choices (cfg : DispatchConfig) (expert_output : Mat)
    (t c : Nat) :
    decode cfg expert_output t c =
      sumTo (fun i =>
        if cfg.locations_ i t < cfg.capacity
        then cfg.gates_ i t *
          expert_output (cfg.indices_ i t * cfg.capacity + cfg.locations_ i t) c
        else 0) cfg.k := by
  unfold decode
  rw [decode_closed_form]
  exact sumTo_congr _ (fun i _ => rfl)

/-! Communication operators (`tutel/impls/communicate.py`). A group of `P`
workers is embedded as the world size `P : Nat` together with per-rank
tensors `Nat → Mat` (rank ↦ that rank's local tensor); the collective
primitives of `torch.distributed` are given their standard semantics. -/

/-- `dist.all_to_all_single` over a group whose per-rank inputs are `inputs`,
each with leading dimension `P * chunk`: on rank `r`, output chunk `j`
(rows `j*chunk ..< (j+1)*chunk`) is chunk `r` of rank `j`'s input. -/
def all_to_all_single (chunk : Nat) (inputs : Nat → Mat) (r : Nat) : Mat :=
  fun row c => inputs (row / chunk) (r * chunk + row % chunk) c

/-- `AllToAll.forward`: identity when the group has size at most 1 or the
pass-through backend (`a2a_type = 0`) is selected; otherwise the standard
exchange (`dist.all_to_all_single`). Timing instrumentation and the external
backend negotiation do not alter the data and are not modelled. -/
def AllToAll_forward (a2a_type P chunk : Nat) (inputs : Nat → Mat) (r : Nat) : Mat :=
  if P ≤ 1 ∨ a2a_type = 0 then inputs r
  else all_to_all_single chunk inputs r

/-- `AllToAll.backward`: applies `AllToAll` itself to the incoming gradient
over the saved group (`AllToAll.apply(ctx.group, grad_output)`). -/
def AllToAll_backward (a2a_type P chunk : Nat) (grads : Nat → Mat) (r : Nat) : Mat :=
  AllToAll_forward a2a_type P chunk grads r

/-- `dist.all_gather` followed by the flattening `view`: concatenation of the
per-rank tensors (each of leading dimension `n`) along the leading axis; the
result does not depend on the calling rank. -/
def all_gather_cat (n : Nat) (tensors : Nat → Mat) : Mat :=
  fun row c => tensors (row / n) (row % n) c

/-- `dist.reduce_scatter` after chunking each rank's tensor into `P` blocks of
`n` rows: rank `r` receives the elementwise sum, over the ranks `w`, of block
`r` of rank `w`'s tensor. -/
def reduce_scatter_sum (P n : Nat) (tensors : Nat → Mat) (r : Nat) : Mat :=
  fun q c => sumTo (fun w => tensors w (r * n + q) c) P

/-- `PreAllreduceSum.forward` (Expand): identity for a group of size at most 1;
otherwise all-gathers every rank's input (leading dimension `n`) and views the
result as their concatenation along the leading axis. -/
def PreAllreduceSum_forward (P n : Nat) (inputs : Nat → Mat) (r : Nat) : Mat :=
  if P ≤ 1 then inputs r else all_gather_cat n inputs

/-- `PreAllreduceSum.backward`: identity for a group of size at most 1;
otherwise chunks the incoming gradient (leading dimension `P * n`, where `n`
is the forward input's leading dimension saved in `ctx.input_shape`) into `P`
blocks and reduce-scatters, returning rank `r` the sum over ranks of block `r`. -/
def PreAllreduceSum_backward (P n : Nat) (douts : Nat → Mat) (r : Nat) : Mat :=
  if P ≤ 1 then douts r else reduce_scatter_sum P n douts r

/-- `torch.chunk` block size for splitting a leading dimension of `n` into at
most `P` chunks: `⌈n / P⌉`. -/
def chunk_size (n P : Nat) : Nat := (n + P - 1) / P

/-- Number of chunks `torch.chunk` actually returns for a leading dimension of
`n` and requested `P` chunks: `⌈n / ⌈n / P⌉⌉`; strictly fewer than `P` when
`n < P`. -/
def num_chunks (n P : Nat) : Nat :=
  (n + chunk_size n P - 1) / chunk_size n P

/-- `PostAllreduceSum.forward` (Contract): identity for a group of size at most
1; otherwise chunks the input (leading dimension `n`) into `P` blocks, checks
`assert len(chunks) == ctx.num_nodes` — modelled as `none` (AssertionError)
when the split does not yield exactly `P` chunks — and reduce-scatters,
returning rank `r` the sum over ranks of block `r`. -/
def PostAllreduceSum_forward (P n : Nat) (inputs : Nat → Mat) (r : Nat) : Option Mat :=
  if P ≤ 1 then some (inputs r)
  else if num_chunks n P = P
  then some (reduce_scatter_sum P (chunk_size n P) inputs r)
  else none

/-- `PostAllreduceSum.backward`: identity for a group of size at most 1;
otherwise all-gathers the per-rank shard gradients (each of `chunk_size n P`
rows) into the full concatenated gradient of the forward input's shape. -/
def PostAllreduceSum_backward (P n : Nat) (douts : Nat → Mat) (r : Nat) : Mat :=
  if P ≤ 1 then douts r else all_gather_cat (chunk_size n P) douts

lemma div_mod_cancel {chunk : Nat} (hchunk : 0 < chunk) (r row : Nat) :
    (r * chunk + row % chunk) / chunk = r ∧
      (r * chunk + row % chunk) % chunk = row % chunk := by
  constructor
  · rw [Nat.mul_comm r chunk, Nat.mul_add_div hchunk,
      Nat.div_eq_of_lt (Nat.mod_lt row hchunk), Nat.add_zero]
  · rw [Nat.mul_comm r chunk, Nat.mul_add_mod,
      Nat.mod_eq_of_lt (Nat.mod_lt row hchunk)]

/-- Claim C4: the backward of the all-to-all operator applied to a gradient
tensor equals the forward all-to-all applied to that tensor over the same
group; moreover (the adjoint/involution property under a balanced partition)
applying the underlying exchange twice restores every rank's data. -/
theorem all_to_all_backward_is_forward (a2a_type P chunk : Nat)
    (g : Nat → Mat) (r : Nat) (hchunk : 0 < chunk) :
    (∀ row c, AllToAll_backward a2a_type P chunk g r row c =
        AllToAll_forward a2a_type P chunk g r row c) ∧
      (∀ row c,
        all_to_all_single chunk (fun w => all_to_all_single chunk g w) r row c =
          g r row c) := by
  refine ⟨fun row c => rfl, fun row c => ?_⟩
  simp only [all_to_all_single]
  rw [(div_mod_cancel hchunk r row).1, (div_mod_cancel hchunk r row).2,
    Nat.mul_comm (row / chunk) chunk, Nat.div_add_mod row chunk]

/-- A concrete 2-worker group for the communication witnesses: rank `w`'s
tensor holds `w * 10 + row` in column 0. -/
def inputsW : Nat → Mat := fun w row _ => w * 10 + row

theorem all_to_all_backward_is_forward_witness :
    (0 : Nat) < 1 ∧
      AllToAll_backward 1 2 1 inputsW 0 1 0 = AllToAll_forward 1 2 1 inputsW 0 1 0 ∧
      all_to_all_single 1 (fun w => all_to_all_single 1 inputsW w) 0 1 0 =
        inputsW 0 1 0 :=
  ⟨by decide,
    (all_to_all_backward_is_forward 1 2 1 inputsW 0 (by decide)).1 1 0,
    (all_to_all_backward_is_forward 1 2 1 inputsW 0 (by decide)).2 1 0⟩

lemma chunk_size_of_dvd (P n : Nat) (hP : 0 < P) (h : P ∣ n) :
    chunk_size n P = n / P := by
  obtain ⟨k, hk⟩ := h
  subst hk
  unfold chunk_size
  rw [Nat.mul_div_cancel_left k hP]
  have hsplit : P * k + P - 1 = P * k + (P - 1) := by omega
  rw [hsplit, Nat.mul_add_div hP, Nat.div_eq_of_lt (by omega), Nat.add_zero]

lemma num_chunks_of_dvd (P n : Nat) (hP : 0 < P) (hn : 0 < n) (h : P ∣ n) :
    num_chunks n P = P := by
  obtain ⟨k, hk⟩ := h
  unfold num_chunks
  rw [chunk_size_of_dvd P _ hP ⟨k, hk⟩]
  subst hk
  have hk0 : 0 < k := by
    rcases Nat.eq_zero_or_pos k with h0 | h0
    · subst h0
      simp at hn
    · exact h0
  rw [Nat.mul_div_cancel_left k hP, Nat.mul_comm P k]
  have hsplit : k * P + k - 1 = k * P + (k - 1) := by omega
  rw [hsplit, Nat.mul_add_div hk0, Nat.div_eq_of_lt (by omega), Nat.add_zero]

/-- Claim C5: Expand (`PreAllreduceSum`) and Contract (`PostAllreduceSum`)
form a mirrored adjoint pair. Over a group of `P > 1` workers with an exact
split (`P ∣ n`): Expand's forward is the all-gather concatenation and its
backward is the reduce-scatter (sum across workers per block, rank `r`
receiving block `r`); Contract's forward issues the reduce-scatter of the
`P` input blocks and its backward is the all-gather reassembling the full
concatenated gradient — the same two underlying collectives, mirrored. -/
theorem expand_contract_adjoint_pair (P n : Nat) (xs ds : Nat → Mat) (r : Nat)
    (hP : 1 < P) (hdvd : P ∣ n) (hn : 0 < n) :
    (∀ row c, PreAllreduceSum_forward P n xs r row c = all_gather_cat n xs row c) ∧
      (∀ q c, PreAllreduceSum_backward P n ds r q c =
        reduce_scatter_sum P n ds r q c) ∧
      ((PostAllreduceSum_forward P n xs r).isSome = true) ∧
      (∀ q c, ((PostAllreduceSum_forward P n xs r).getD zerosMat) q c =
        reduce_scatter_sum P (n / P) xs r q c) ∧
      (∀ row c, PostAllreduceSum_backward P n ds r row c =
        all_gather_cat (n / P) ds row c) := by
  have hnle : ¬ P ≤ 1 := by omega
  have hcs := chunk_size_of_dvd P n (by omega) hdvd
  have hnc := num_chunks_of_dvd P n (by omega) hn hdvd
  refine ⟨fun row c => ?_, fun q c => ?_, ?_, fun q c => ?_, fun row c => ?_⟩
  · simp [PreAllreduceSum_forward, hnle]
  · simp [PreAllreduceSum_backward, hnle]
  · simp [PostAllreduceSum_forward, hnle, hnc]
  · simp [PostAllreduceSum_forward, hnle, hnc, hcs]
  · simp [PostAllreduceSum_backward, hnle, hcs]

theorem expand_contract_adjoint_pair_witness :
    (1 : Nat) < 2 ∧ (2 : Nat) ∣ 2 ∧ (0 : Nat) < 2 ∧
      PreAllreduceSum_forward 2 2 inputsW 0 3 0 = all_gather_cat 2 inputsW 3 0 ∧
      PreAllreduceSum_backward 2 2 inputsW 0 1 0 =
        reduce_scatter_sum 2 2 inputsW 0 1 0 ∧
      ((PostAllreduceSum_forward 2 2 inputsW 0).getD zerosMat) 0 0 =
        reduce_scatter_sum 2 (2 / 2) inputsW 0 0 0 ∧
      PostAllreduceSum_backward 2 2 inputsW 0 1 0 =
        all_gather_cat (2 / 2) inputsW 1 0 :=
  ⟨by decide, ⟨1, rfl⟩, by decide,
    (expand_contract_adjoint_pair 2 2 inputsW inputsW 0 (by decide) ⟨1, rfl⟩
      (by decide)).1 3 0,
    (expand_contract_adjoint_pair 2 2 inputsW inputsW 0 (by decide) ⟨1, rfl⟩
      (by decide)).2.1 1 0,
    (expand_contract_adjoint_pair 2 2 inputsW inputsW 0 (by decide) ⟨1, rfl⟩
      (by decide)).2.2.2.1 0 0,
    (expand_contract_adjoint_pair 2 2 inputsW inputsW 0 (by decide) ⟨1, rfl⟩
      (by decide)).2.2.2.2 1 0⟩

/-- Claim C7: for a group of `P > 1` workers, Expand's forward returns the
concatenation of every worker's local tensor along the leading axis: row
`w * n + q` of the result equals row `q` of worker `w`'s input (so every
worker's contribution is present), and the result is identical on every
calling rank. -/
theorem expand_forward_concatenates (P n : Nat) (inputs : Nat → Mat)
    (r rp w q c : Nat) (hP : 1 < P) (hq : q < n) :
    PreAllreduceSum_forward P n inputs r (w * n + q) c = inputs w q c ∧
      PreAllreduceSum_forward P n inputs r (w * n + q) c =
        PreAllreduceSum_forward P n inputs rp (w * n + q) c := by
  have hnle : ¬ P ≤ 1 := by omega
  have hn : 0 < n := by omega
  constructor
  · simp only [PreAllreduceSum_forward, if_neg hnle, all_gather_cat]
    rw [Nat.mul_comm w n, Nat.mul_add_div hn, Nat.div_eq_of_lt hq,
      Nat.add_zero, Nat.mul_add_mod, Nat.mod_eq_of_lt hq]
  · simp only [PreAllreduceSum_forward, if_neg hnle]

theorem expand_forward_concatenates_witness :
    (1 : Nat) < 2 ∧ (2 : Nat) < 3 ∧
      PreAllreduceSum_forward 2 3 inputsW 0 (1 * 3 + 2) 0 = inputsW 1 2 0 ∧
      PreAllreduceSum_forward 2 3 inputsW 0 (1 * 3 + 2) 0 =
        PreAllreduceSum_forward 2 3 inputsW 1 (1 * 3 + 2) 0 :=
  ⟨by decide, by decide,
    (expand_forward_concatenates 2 3 inputsW 0 1 1 2 0 (by decide) (by decide)).1,
    (expand_forward_concatenates 2 3 inputsW 0 1 1 2 0 (by decide) (by decide)).2⟩

/-- Claim C8: when the group's world size is 1, each communication operator
(all-to-all, Expand/`pre_allreduce`, Contract/`post_allreduce`) returns its
input unchanged — forward and backward alike — taking the early-return branch
that issues no collective call. -/
theorem world_size_one_identity (a2a_type chunk n : Nat) (inputs : Nat → Mat)
    (r P : Nat) (hP : P = 1) :
    AllToAll_forward a2a_type P chunk inputs r = inputs r ∧
      AllToAll_backward a2a_type P chunk inputs r = inputs r ∧
      PreAllreduceSum_forward P n inputs r = inputs r ∧
      PreAllreduceSum_backward P n inputs r = inputs r ∧
      PostAllreduceSum_forward P n inputs r = some (inputs r) ∧
      PostAllreduceSum_backward P n inputs r = inputs r := by
  subst hP
  refine ⟨?_, ?_, ?_, ?_, ?_, ?_⟩ <;>
    simp [AllToAll_forward, AllToAll_backward, PreAllreduceSum_forward,
      PreAllreduceSum_backward, PostAllreduceSum_forward, PostAllreduceSum_backward]

theorem world_size_one_identity_witness :
    AllToAll_forward 1 1 4 inputsW 0 = inputsW 0 ∧
      PreAllreduceSum_forward 1 8 inputsW 0 = inputsW 0 ∧
      PostAllreduceSum_forward 1 8 inputsW 0 = some (inputsW 0) :=
  ⟨(world_size_one_identity 1 4 8 inputsW 0 1 rfl).1,
    (world_size_one_identity 1 4 8 inputsW 0 1 rfl).2.2.1,
    (world_size_one_identity 1 4 8 inputsW 0 1 rfl).2.2.2.2.1⟩

lemma num_chunks_of_lt (P n : Nat) (hn : 0 < n) (hlt : n < P) :
    num_chunks n P = n := by
  have hcs : chunk_size n P = 1 := by
    unfold chunk_size
    exact Nat.div_eq_of_lt_le (by omega) (by omega)
  unfold num_chunks
  rw [hcs]
  omega

/-- Claim C10: for a group of `P > 1` workers, Contract's forward hits the
`assert len(chunks) == ctx.num_nodes` (modelled as `none`) exactly when
`torch.chunk` does not split the leading dimension into `P` chunks — in
particular whenever the leading dimension is smaller than `P` — and the
reduce-scatter is issued (a `some` result) only when the split yields exactly
`P` chunks. -/
theorem contract_assert_exact_split (P n : Nat) (inputs : Nat → Mat) (r : Nat)
    (hP : 1 < P) (hn : 0 < n) :
    (PostAllreduceSum_forward P n inputs r = none ↔ num_chunks n P ≠ P) ∧
      (n < P → PostAllreduceSum_forward P n inputs r = none) := by
  have hnle : ¬ P ≤ 1 := by omega
  have hiff : PostAllreduceSum_forward P n inputs r = none ↔ num_chunks n P ≠ P := by
    simp only [PostAllreduceSum_forward, if_neg hnle]
    by_cases hnc : num_chunks n P = P
    · simp [hnc]
    · simp [hnc]
  refine ⟨hiff, fun hlt => ?_⟩
  rw [hiff, num_chunks_of_lt P n hn hlt]
  omega

theorem contract_assert_exact_split_witness :
    (1 : Nat) < 2 ∧ (0 : Nat) < 1 ∧ (1 : Nat) < 2 ∧
      PostAllreduceSum_forward 2 1 inputsW 0 = none :=
  ⟨by decide, by decide, by decide,
    (contract_assert_exact_split 2 1 inputsW 0 (by decide) (by decide)).2 (by decide)⟩

/-! Dispatcher construction, `update`, and the kernel cache
(`TutelMoeFastDispatcher.__init__` / `TutelMoeFastDispatcher.update`).
Kernel-cache entries are identified by their `(sample_size, capacity)` keys;
the compiled kernel bundle a key maps to is opaque and determined by the key,
so the pool is embedded as the list of keys inserted, together with a build
counter recording how many times the specialized kernels were built. -/

/-- The torch dtypes the surrounding code mentions. -/
inductive DType where
  | float16
  | float32
  | bfloat16
  | int8
deriving DecidableEq

/-- The fields of `TutelMoeFastDispatcher` relevant to construction and to
`update`'s kernel-cache logic. -/
structure DispatcherState where
  expected_sample_size : Int
  num_global_experts : Int
  capacity : Int
  model_dim : Int
  kernel_pool : List (Int × Int)
  dtype : DType
  original_dtype : DType
  aligned_dim : Int
  build_count : Nat
deriving DecidableEq

/-- `TutelMoeFastDispatcher.__init__`: stores the arguments, starts with
`expected_sample_size = -1` and an empty kernel pool, and silently replaces
the working dtype by `float32` whenever `IS_HIP_EXTENSION` holds or the
requested dtype is not `float16`; no argument is validated. -/
def TutelMoeFastDispatcher_init (is_hip_extension : Bool)
    (num_global_experts capacity model_dim : Int) (dispatch_dtype : DType) :
    DispatcherState :=
  let dtype :=
    if is_hip_extension = true ∨ dispatch_dtype ≠ DType.float16
    then DType.float32 else dispatch_dtype
  { expected_sample_size := -1
    num_global_experts := num_global_experts
    capacity := capacity
    model_dim := model_dim
    kernel_pool := []
    dtype := dtype
    original_dtype := dispatch_dtype
    aligned_dim := model_dim / (if dtype = DType.float16 then 2 else 1)
    build_count := 0 }

/-- The `capacity or self.capacity` resolution in `update`: Python treats both
`None` and `0` as falsy, falling back to the stored capacity. -/
def resolveCapacity (st : DispatcherState) (capacity_arg : Option Int) : Int :=
  match capacity_arg with
  | none => st.capacity
  | some c => if c = 0 then st.capacity else c

/-- The kernel-cache logic of `TutelMoeFastDispatcher.update`: when
`(sample_size, capacity)` differs from the installed pair, the pair is
installed and the specialized kernels for that key are fetched from the pool,
being built (and the key inserted) only when the key is absent; otherwise the
call leaves the cache state untouched. `sample_size` is
`indices_[0].size(0)`, a natural number. -/
def TutelMoeFastDispatcher_update (st : DispatcherState) (sample_size : Nat)
    (capacity_arg : Option Int) : DispatcherState :=
  let capacity := resolveCapacity st capacity_arg
  if (sample_size : Int) ≠ st.expected_sample_size ∨ capacity ≠ st.capacity then
    let st1 := { st with expected_sample_size := (sample_size : Int),
                         capacity := capacity }
    if ((sample_size : Int), capacity) ∈ st1.kernel_pool then st1
    else { st1 with kernel_pool := st1.kernel_pool ++ [((sample_size : Int), capacity)],
                    build_count := st1.build_count + 1 }
  else st

/-- Claim C6 is false on the code: constructing a dispatcher with a
non-positive capacity (0), a non-positive expert count (0) and an unrecognized
precision request (`bfloat16`) surfaces no error: `__init__` returns normally,
stores the non-positive values unchanged, and silently coerces the dtype to
`float32`; `update` on that state also returns normally. -/
theorem config_error_fail_fast_counterexample :
    TutelMoeFastDispatcher_init false 0 0 8 DType.bfloat16 =
      { expected_sample_size := -1
        num_global_experts := 0
        capacity := 0
        model_dim := 8
        kernel_pool := []
        dtype := DType.float32
        original_dtype := DType.bfloat16
        aligned_dim := 8
        build_count := 0 } ∧
      TutelMoeFastDispatcher_update
          (TutelMoeFastDispatcher_init false 0 0 8 DType.bfloat16) 4 none =
        { expected_sample_size := 4
          num_global_experts := 0
          capacity := 0
          model_dim := 8
          kernel_pool := [(4, 0)]
          dtype := DType.float32
          original_dtype := DType.bfloat16
          aligned_dim := 8
          build_count := 1 } := by
  refine ⟨by decide, by decide⟩

/-- Claim C6 (amended): neither construction nor `update` validates its
configuration: every argument (including a non-positive capacity or expert
count) is stored unchanged, an unrecognized (non-`float16`) precision request
is silently replaced by `float32` rather than rejected, and both operations
return normally on every input (they are total). -/
theorem config_no_validation (is_hip : Bool) (nge cap md : Int) (dt : DType)
    (s : Nat) (carg : Option Int) :
    (TutelMoeFastDispatcher_init is_hip nge cap md dt).num_global_experts = nge ∧
      (TutelMoeFastDispatcher_init is_hip nge cap md dt).capacity = cap ∧
      (TutelMoeFastDispatcher_init is_hip nge cap md dt).model_dim = md ∧
      (TutelMoeFastDispatcher_init is_hip nge cap md dt).original_dtype = dt ∧
      (TutelMoeFastDispatcher_init is_hip nge cap md dt).dtype =
        (if is_hip = true ∨ dt ≠ DType.float16 then DType.float32 else dt) ∧
      (TutelMoeFastDispatcher_update (TutelMoeFastDispatcher_init is_hip nge cap md dt)
          s carg).expected_sample_size = (s : Int) := by
  refine ⟨rfl, rfl, rfl, rfl, rfl, ?_⟩
  unfold TutelMoeFastDispatcher_update
  have hcond : ((s : Int) ≠
      (TutelMoeFastDispatcher_init is_hip nge cap md dt).expected_sample_size ∨
      resolveCapacity (TutelMoeFastDispatcher_init is_hip nge cap md dt) carg ≠
        (TutelMoeFastDispatcher_init is_hip nge cap md dt).capacity) := by
    left
    show (s : Int) ≠ -1
    omega
  rw [if_pos hcond]
  simp only []
  split <;> rfl

lemma update_expected_capacity (st : DispatcherState) (s : Nat) (carg : Option Int) :
    (TutelMoeFastDispatcher_update st s carg).expected_sample_size = (s : Int) ∧
      (TutelMoeFastDispatcher_update st s carg).capacity = resolveCapacity st carg := by
  unfold TutelMoeFastDispatcher_update
  by_cases hcond : ((s : Int) ≠ st.expected_sample_size ∨
      resolveCapacity st carg ≠ st.capacity)
  · rw [if_pos hcond]
    simp only []
    split <;> exact ⟨rfl, rfl⟩
  · rw [if_neg hcond]
    push_neg at hcond
    exact ⟨hcond.1.symm, hcond.2.symm⟩

lemma resolveCapacity_stable (st : DispatcherState) (s : Nat) (carg : Option Int) :
    resolveCapacity (TutelMoeFastDispatcher_update st s carg) carg =
      (TutelMoeFastDispatcher_update st s carg).capacity := by
  have h2 := (update_expected_capacity st s carg).2
  cases carg with
  | none => rfl
  | some c =>
      by_cases hc : c = 0
      · simp [resolveCapacity, hc]
      · simp only [resolveCapacity, if_neg hc] at h2 ⊢
        exact h2.symm

/-- Claim C9: the kernel cache is keyed solely by `(sample_size, capacity)`
and is built at most once per key: `update` is idempotent (the second of two
successive calls with identical routing shape leaves the dispatcher state —
kernel pool included — exactly as the first left it, rebuilding nothing and
duplicating no entry), and from a freshly constructed dispatcher a first
`update` builds exactly once, leaving a single pool entry for its key. -/
theorem kernel_cache_reuse (hip : Bool) (nge cap md : Int) (dt : DType)
    (s : Nat) (carg : Option Int) (st : DispatcherState) :
    TutelMoeFastDispatcher_update (TutelMoeFastDispatcher_update st s carg) s carg =
        TutelMoeFastDispatcher_update st s carg ∧
      (TutelMoeFastDispatcher_update (TutelMoeFastDispatcher_init hip nge cap md dt)
          s carg).build_count = 1 ∧
      (TutelMoeFastDispatcher_update (TutelMoeFastDispatcher_init hip nge cap md dt)
          s carg).kernel_pool =
        [((s : Int),
          resolveCapacity (TutelMoeFastDispatcher_init hip nge cap md dt) carg)] := by
  refine ⟨?_, ?_, ?_⟩
  · have h1 := (update_expected_capacity st s carg).1
    have hres := resolveCapacity_stable st s carg
    conv_lhs => rw [TutelMoeFastDispatcher_update]
    rw [if_neg]
    push_neg
    exact ⟨h1.symm, hres⟩
  · have hcond : ((s : Int) ≠
        (TutelMoeFastDispatcher_init hip nge cap md dt).expected_sample_size ∨
        resolveCapacity (TutelMoeFastDispatcher_init hip nge cap md dt) carg ≠
          (TutelMoeFastDispatcher_init hip nge cap md dt).capacity) := by
      left
      show (s : Int) ≠ -1
      omega
    rw [TutelMoeFastDispatcher_update, if_pos hcond]
    simp only []
    rw [if_neg (by simp [TutelMoeFastDispatcher_init])]
    simp [TutelMoeFastDispatcher_init]
  · have hcond : ((s : Int) ≠
        (TutelMoeFastDispatcher_init hip nge cap md dt).expected_sample_size ∨
        resolveCapacity (TutelMoeFastDispatcher_init hip nge cap md dt) carg ≠
          (TutelMoeFastDispatcher_init hip nge cap md dt).capacity) := by
      left
      show (s : Int) ≠ -1
      omega
    rw [TutelMoeFastDispatcher_update, if_pos hcond]
    simp only []
    rw [if_neg (by simp [TutelMoeFastDispatcher_init])]
    simp [TutelMoeFastDispatcher_init]

end Tutel
